import Mathlib

/-!
Verification of the continuous-deployment state-synchronization engine of
`python-devops-sccs` against its natural-language specification.

The development shallowly embeds the relevant parts of
`src/devops_sccs/plugins/bitbucketcloud.py`, `src/devops_sccs/utils/cd.py`
and `src/devops_sccs/realtime/hookserver.py`:

* configuration dictionaries become structures with the same field accesses;
* cache dictionaries become association lists, reads return the stored
  value and writes replace it, mirroring the spec contract for the shared
  cache (whose implementation module is not part of the sources);
* a Python exception that escapes a handler leaves the cache state
  unchanged, so handlers are modelled as total state transformers that
  return the input state on the exceptional paths (each such path is noted
  where it occurs);
* build identifiers are the strings captured by the regex
  `/(\d+)$` on the status URL, and Python string comparison is the
  lexicographic order on code points, which is exactly the order of
  `String.lt`.
-/

namespace DevopsSccs

/-- Modelled from the spec: `EnvironmentConfig` (the `typing.cd` module is
not among the sources). Key is composite(repository, branch); fields are the
environment name, the deployed version (or none), the readonly flag and the
optional pending-pull-request link. `name` holds the branch the entry is
keyed by, which the push handler reads back as `b.name` when ranking cached
entries. Fields left unset by a constructor default to empty/none/false. -/
structure EnvironmentConfig where
  key : String × String := ("", "")
  name : String := ""
  environment : String := ""
  version : Option String := none
  readonly : Bool := false
  pullrequest : Option String := none
  deriving Repr, DecidableEq

/-- Modelled from the spec: `Available` (the `typing.cd` module is not among
the sources). Key is composite(repository, build number); fields are the
build number (a string, as parsed from the status URL by the webhook
handler) and the commit identifier. -/
structure Available where
  key : String × String := ("", "")
  build : String := ""
  version : String := ""
  deriving Repr, DecidableEq

/-- Version-resolution part of one configured environment: the handler reads
`config["version"].get("file")` and `config["version"].get("git")`. -/
structure VersionCfg where
  file : Option String := none
  git : Option String := none
  deriving Repr, DecidableEq

/-- Trigger part of one configured environment: the code reads
`config.get("trigger", {}).get("enabled", True)` and
`...get("pullrequest", False)`. -/
structure TriggerCfg where
  enabled : Bool := true
  pullrequest : Bool := false
  deriving Repr, DecidableEq

/-- One entry of `args["continous_deployment"]["environments"]`. -/
structure EnvCfgEntry where
  name : String
  branch : String
  version : VersionCfg := {}
  trigger : Option TriggerCfg := none
  deriving Repr, DecidableEq

/-- The plugin configuration consumed in `BitbucketCloud.init`. -/
structure PluginConfig where
  cd_environments : List EnvCfgEntry
  cd_pullrequest_tag : String := ""
  cd_versions_available : List String := []
  deriving Repr, DecidableEq

/-- Mirrors `self.cd_branches_accepted = [env["branch"] for env in self.cd_environments]`. -/
def PluginConfig.cd_branches_accepted (cfg : PluginConfig) : List String :=
  cfg.cd_environments.map (fun e => e.branch)

/-- Error taxonomy raised by `utils/cd.py` for the deployment trigger. -/
inductive TriggerError where
  | envUnsupported (repository environment : String)
  | readOnly (repository environment : String)
  | versionAlreadyDeployed (repository environment version : String)
  | versionUnsupported (repository version : String)
  deriving Repr, DecidableEq

/-- Embedding of `utils/cd.py` `trigger_prepare`: readonly check, then
already-deployed check, then scan of the available versions; the first
match returns, otherwise `TriggerCdVersionUnsupported` is raised. -/
def trigger_prepare (continuous_deployment : EnvironmentConfig)
    (versions_available : List Available)
    (repository environment version : String) :
    Except TriggerError (EnvironmentConfig × Available) :=
  if continuous_deployment.readonly then
    .error (.readOnly repository environment)
  else if continuous_deployment.version == some version then
    .error (.versionAlreadyDeployed repository environment version)
  else
    match versions_available.find? (fun available => available.version == version) with
    | some available => .ok (continuous_deployment, available)
    | none => .error (.versionUnsupported repository version)

/-- Embedding of the precondition phase of `trigger_continuous_deployment`
(bitbucketcloud.py lines 462-475): the linear scan of `self.cd_environments`
for the requested environment name raises `TriggerCdEnvUnsupported` via
`utils_cd.trigger_not_supported` when no entry matches, and otherwise the
checks of `utils_cd.trigger_prepare` run. The environment configuration
snapshot and the available-version list that the code fetches between the
two steps are passed as arguments (the fetch itself is treated with
`get_continuous_deployment_config` below). -/
def trigger_deployment_check (cfg : PluginConfig)
    (continuous_deployment : EnvironmentConfig)
    (versions_available : List Available)
    (repository environment version : String) :
    Except TriggerError (EnvironmentConfig × Available) :=
  match cfg.cd_environments.find? (fun cd_environment => cd_environment.name == environment) with
  | none => .error (.envUnsupported repository environment)
  | some _ =>
      trigger_prepare continuous_deployment versions_available repository environment version

/-- Lexicographic comparison of character lists by code point; a strict
prefix is smaller. This is how Python compares two `str` values. -/
def charListLt : List Char → List Char → Bool
  | [], [] => false
  | [], _ :: _ => true
  | _ :: _, [] => false
  | c₁ :: r₁, c₂ :: r₂ =>
    if c₁ < c₂ then true
    else if c₂ < c₁ then false
    else charListLt r₁ r₂

/-- Python string comparison `s₁ < s₂`: lexicographic on code points. -/
def pyStrLt (s₁ s₂ : String) : Bool := charListLt s₁.data s₂.data

/-- Python `list.index(x)` as a total function: the first index holding `x`,
or `none` for the `ValueError` case. -/
def listIndex (x : String) : List String → Option Nat
  | [] => none
  | y :: rest => if y == x then some 0 else (listIndex x rest).map (fun n => n + 1)

/-- Per-repository slice of the webhook-maintained caches:
`self.cache["environementConfig"][UUID]` and `self.cache["available"][UUID]`. -/
structure RepoCDState where
  envConfigs : List EnvironmentConfig := []
  available : List Available := []
  deriving Repr, DecidableEq

/-- Embedding of `re.search("/(\d+)$", url).group(1)`: the maximal nonempty
digit run at the end of the URL, provided it is preceded by a slash; `none`
models the `AttributeError` raised by `.group(1)` on a failed search. -/
def parseBuildNb (url : String) : Option String :=
  let ds := url.data.reverse.takeWhile (fun c => c.isDigit)
  if ds.isEmpty then none
  else
    match url.data.reverse.drop ds.length with
    | '/' :: _ => some (String.mk ds.reverse)
    | _ => none

/-- Embedding of the insertion scan of `__handle_commit_status` (lines
146-160): walk the cached list keeping an insertion point `i`; an entry with
a greater build (Python string comparison) advances the point, an equal
build breaks without change, a smaller build inserts the new entry before it
and breaks. When the loop exhausts the list no insertion happens — the
code has no append after the loop. -/
def statusInsert (uuid build_nb version : String) :
    List Available → List Available
  | [] => []
  | conf :: rest =>
    if pyStrLt build_nb conf.build then
      conf :: statusInsert uuid build_nb version rest
    else if conf.build == build_nb then
      conf :: rest
    else
      { key := (uuid, build_nb), build := build_nb, version := version } :: conf :: rest

/-- Event-kind discriminator carried by the `X-Event-Key` header, as decoded
into `aiobitbucket`'s `event_t`. -/
inductive HookEventKind where
  | repoDeleted
  | repoPush
  | commitStatusCreated
  | commitStatusUpdated
  | otherEvent
  deriving Repr, DecidableEq

/-- Fields of the commit-status webhook payload read by
`__handle_commit_status`. -/
structure CommitStatusPayload where
  refname : String
  state : String
  url : String
  commitHash : String
  repoName : String
  deriving Repr, DecidableEq

/-- The `commit_status_state.SUCCESSFUL` constant compared against the
payload state. -/
def SUCCESSFUL : String := "SUCCESSFUL"

/-- Embedding of `__handle_commit_status` (lines 129-171) as a state
transformer on the per-repository cache slice. Exceptional paths leave the
state unchanged: a failed regex search raises before any cache access, and
for a `commit_status_created` event whose refname is not an accepted branch,
`self.cd_branches_accepted.index(...)` on line 139 raises `ValueError`
before the successful-state block runs. Non-successful states do not touch
the cache (the failed/stopped and in-progress branches are `pass`). -/
def handle_commit_status (cfg : PluginConfig) (uuid : String)
    (event : HookEventKind) (st : RepoCDState) (p : CommitStatusPayload) :
    RepoCDState :=
  if cfg.cd_versions_available.contains p.refname then
    match parseBuildNb p.url with
    | none => st
    | some build_nb =>
      if event == .commitStatusCreated && !(cfg.cd_branches_accepted.contains p.refname) then
        st
      else if p.state == SUCCESSFUL then
        { st with available := statusInsert uuid build_nb p.commitHash st.available }
      else
        st
  else
    st

/-- One element of `responseJson["changes"]` as read by `__handle_push`. -/
structure PushChange where
  created : Bool
  newName : String
  deriving Repr, DecidableEq

/-- Embedding of the insertion scan of `__handle_push` (lines 116-125): walk
the cached environment-config list; an entry ranking strictly below the new
branch advances the insertion point, an equal rank breaks without change, a
greater rank inserts the placeholder before it and breaks. A cached entry
whose name is not in the accepted-branch list makes `list.index` raise
`ValueError` (`none` here); and when the loop exhausts the list no insertion
happens — the code has no append after the loop. -/
def pushInsertLoop (branches : List String) (index : Nat)
    (env : EnvironmentConfig) :
    List EnvironmentConfig → Option (List EnvironmentConfig)
  | [] => some []
  | b :: rest =>
    match listIndex b.name branches with
    | none => none
    | some index_b =>
      if index_b < index then
        (pushInsertLoop branches index env rest).map (fun l => b :: l)
      else if index_b == index then
        some (b :: rest)
      else
        some (env :: b :: rest)

/-- Embedding of the body of the `for change in responseJson["changes"]`
loop of `__handle_push` (lines 109-127): for a newly created ref, look up
its rank in the accepted branch list (`ValueError` is caught: skip), build
the placeholder `EnvironmentConfig`, and run the insertion scan; a
`ValueError` escaping the scan is caught by the same `except` and leaves the
list unchanged. -/
def applyChange (cfg : PluginConfig) (uuid : String)
    (envConfigs : List EnvironmentConfig) (change : PushChange) :
    List EnvironmentConfig :=
  if change.created then
    match listIndex change.newName cfg.cd_branches_accepted with
    | none => envConfigs
    | some index =>
      let entry := (cfg.cd_environments[index]?).getD { name := "", branch := "" }
      let env : EnvironmentConfig :=
        { key := (uuid, change.newName), environment := entry.name }
      match pushInsertLoop cfg.cd_branches_accepted index env envConfigs with
      | none => envConfigs
      | some l => l
  else
    envConfigs

/-- Embedding of `__handle_push` (lines 107-127): fold the per-change
insertion over the payload's change list. -/
def handle_push (cfg : PluginConfig) (uuid : String) (st : RepoCDState)
    (changes : List PushChange) : RepoCDState :=
  { st with envConfigs := changes.foldl (applyChange cfg uuid) st.envConfigs }

/-- A webhook event relevant to the per-repository cache slice: a push or a
commit-status created/updated notification. -/
inductive RepoEvent where
  | push (changes : List PushChange)
  | commitStatus (event : HookEventKind) (p : CommitStatusPayload)
  deriving Repr, DecidableEq

/-- Dispatch of one event to the matching handler body. -/
def applyRepoEvent (cfg : PluginConfig) (uuid : String) (st : RepoCDState) :
    RepoEvent → RepoCDState
  | .push changes => handle_push cfg uuid st changes
  | .commitStatus event p => handle_commit_status cfg uuid event st p

/-- Repository record stored in `self.cache["repo"]` by the webhook
endpoint: a `RepoSlug(None, workspace_name=..., repo_slug_name=..., data=...)`. -/
structure RepoSlugRecord where
  workspace_name : String
  repo_slug_name : String
  deriving Repr, DecidableEq

/-- Association-list model of one cache namespace of the cross-process
store; keys are repository full names and are unique. -/
abbrev CacheDict (α : Type) : Type := List (String × α)

/-- Python dictionary assignment `d[k] = v`: replace the entry when the key
is present, append it otherwise. -/
def setEntry {α : Type} : CacheDict α → String → α → CacheDict α
  | [], k, v => [(k, v)]
  | (k', v') :: rest, k, v =>
    if k' == k then (k, v) :: rest else (k', v') :: setEntry rest k v

/-- Python `del d[k]` guarded by `if k in d`: drop the entry for `k` when
there is one, and do nothing otherwise. -/
def delEntry {α : Type} (d : CacheDict α) (k : String) : CacheDict α :=
  d.filter (fun p => !(p.1 == k))

/-- Dictionary lookup used to observe the modelled caches. -/
def getEntry {α : Type} (d : CacheDict α) (k : String) : Option α :=
  List.lookup k d

/-- The four cache namespaces created in `BitbucketCloud.init` (lines
67-72): repository records, environment configs, continuous-deployment
configs, available versions. -/
structure CacheState where
  repo : CacheDict RepoSlugRecord := []
  environementConfig : CacheDict (List EnvironmentConfig) := []
  continuousDeploymentConfig : CacheDict (List (String × EnvironmentConfig)) := []
  available : CacheDict (List Available) := []
  deriving DecidableEq

/-- Embedding of `__handle_delete_repo` (lines 101-105): iterate over every
cache namespace and delete the repository's entry when present. -/
def handle_delete_repo (uuid : String) (st : CacheState) : CacheState :=
  { repo := delEntry st.repo uuid
    environementConfig := delEntry st.environementConfig uuid
    continuousDeploymentConfig := delEntry st.continuousDeploymentConfig uuid
    available := delEntry st.available uuid }

/-- Calling an `async def` function in Python builds a coroutine object
without running its body; when the caller neither awaits nor schedules it,
the body never executes. The state transformer the body denotes is
therefore discarded and the state passes through unchanged. -/
def unawaited {α : Type} (_body : α → α) : α → α := fun a => a

/-- One inbound webhook request as read by `__handle_Hooks_Repo`: the
`X-Event-Key` header discriminator and the JSON fields the endpoint and the
handlers access. -/
structure HookRequest where
  eventKey : HookEventKind
  uuid : String
  workspaceSlug : String
  repoName : String
  changes : List PushChange := []
  commitStatus : CommitStatusPayload :=
    { refname := "", state := "", url := "", commitHash := "", repoName := "" }
  deriving Repr, DecidableEq

/-- Per-repository cache slice seen by a handler body inside the global
cache state. -/
def cacheSlice (s : CacheState) (uuid : String) : RepoCDState :=
  { envConfigs := (getEntry s.environementConfig uuid).getD []
    available := (getEntry s.available uuid).getD [] }

/-- State effect the coroutine built by `self.__handle_push(UUID, json)`
would have if it were awaited. -/
def pushCoroutineBody (cfg : PluginConfig) (uuid : String)
    (changes : List PushChange) (s : CacheState) : CacheState :=
  let slice := handle_push cfg uuid (cacheSlice s uuid) changes
  { s with environementConfig := setEntry s.environementConfig uuid slice.envConfigs }

/-- State effect the coroutine built by
`self.__handle_commit_status(UUID, event, json)` would have if it were
awaited. -/
def statusCoroutineBody (cfg : PluginConfig) (uuid : String)
    (event : HookEventKind) (p : CommitStatusPayload) (s : CacheState) :
    CacheState :=
  let slice := handle_commit_status cfg uuid event (cacheSlice s uuid) p
  { s with available := setEntry s.available uuid slice.available }

/-- Embedding of the endpoint `__handle_Hooks_Repo` (lines 79-99): a
repository-deleted event clears the caches; every other event stores the
repository record, and then the push / commit-status branches call
`self.__handle_push(...)` / `self.__handle_commit_status(...)` without
`await`, so the produced coroutines are discarded (`unawaited`) and the
handler bodies never run. -/
def handle_Hooks_Repo (cfg : PluginConfig) (st : CacheState)
    (req : HookRequest) : CacheState :=
  if req.eventKey == .repoDeleted then
    handle_delete_repo req.uuid st
  else
    let record : RepoSlugRecord :=
      { workspace_name := req.workspaceSlug, repo_slug_name := req.repoName }
    let st' := { st with repo := setEntry st.repo req.uuid record }
    if req.eventKey == .repoPush then
      unawaited (pushCoroutineBody cfg req.uuid req.changes) st'
    else if req.eventKey == .commitStatusCreated || req.eventKey == .commitStatusUpdated then
      unawaited (statusCoroutineBody cfg req.uuid req.eventKey req.commitStatus) st'
    else
      st'

/-- Error raised by `_fetch_continuous_deployment_config` when no accepted
branch exists: `SccsException("continuous deployment seems not supported for {repository}")`. -/
inductive FetchError where
  | cdNotSupported (repository : String)
  deriving Repr, DecidableEq

/-- Embedding of the branch-selection loop of
`_fetch_continuous_deployment_config` (lines 354-361): for each branch of
the repository, look up its rank in the accepted branch list (`ValueError`
is caught: skip), and keep it when no environment filter is given or the
filter names the branch's environment. -/
def computeDeploys (cfg : PluginConfig) (environments : Option (List String)) :
    List String → List (String × Nat)
  | [] => []
  | bname :: rest =>
    match listIndex bname cfg.cd_branches_accepted with
    | none => computeDeploys cfg environments rest
    | some index =>
      let entry := (cfg.cd_environments[index]?).getD { name := "", branch := "" }
      let keep :=
        match environments with
        | none => true
        | some envs => envs.contains entry.name
      if keep then (bname, index) :: computeDeploys cfg environments rest
      else computeDeploys cfg environments rest

/-- Embedding of `_fetch_continuous_deployment_config` (lines 345-387). The
repository's branch list is an input; the per-branch resolution performed by
`_get_continuous_deployment_config_by_branch` (a network interaction) is an
oracle argument `resolve`. An empty selection raises the
continuous-deployment-not-supported `SccsException` before anything else;
otherwise the selection is sorted by rank and resolved into the
branch-indexed response dictionary. -/
def fetch_continuous_deployment_config (cfg : PluginConfig)
    (repository : String) (branchNames : List String)
    (environments : Option (List String))
    (resolve : String → Nat → EnvironmentConfig) :
    Except FetchError (List (String × EnvironmentConfig)) :=
  let deploys := computeDeploys cfg environments branchNames
  if deploys.length == 0 then
    .error (.cdNotSupported repository)
  else
    let sorted := deploys.mergeSort (fun a b => Nat.ble a.2 b.2)
    .ok (sorted.map (fun d => (d.1, resolve d.1 d.2)))

/-- Embedding of line 512 of `trigger_continuous_deployment`:
`pr.title = f"Ugrade {environment} {self.cd_pullrequest_tag}"`. -/
def prTitle (environment cd_pullrequest_tag : String) : String :=
  "Ugrade " ++ environment ++ " " ++ cd_pullrequest_tag

/-- Title format the specification prescribes for the deployment pull
request: `"Upgrade <environment> <tag>"`. This definition follows the
spec's words and is compared against `prTitle`, the one taken from the
source. -/
def specPrTitle (environment cd_pullrequest_tag : String) : String :=
  "Upgrade " ++ environment ++ " " ++ cd_pullrequest_tag

/-- Python exception surfaced by the modelled expression evaluation. -/
inductive PyExn where
  | attributeError (attr : String)
  | keyError
  deriving Repr, DecidableEq

/-- Python runtime value produced by the sub-expressions of
`get_continuous_deployment_config`: calling the `async def`
`_fetch_continuous_deployment_config` yields a coroutine object (its body
has not run), while the cache path yields the stored dictionary. -/
inductive PyObject where
  | coroutine
  | dict (entries : List (String × EnvironmentConfig))
  deriving Repr, DecidableEq

/-- Python attribute access `obj.values`: defined on dictionaries, an
`AttributeError` on a coroutine object — attribute lookup happens before
any `await` can run the coroutine. -/
def getattrValues : PyObject → Except PyExn (List EnvironmentConfig)
  | .dict entries => .ok (entries.map (fun p => p.2))
  | .coroutine => .error (.attributeError "values")

/-- Session dictionary handled by the plugin; only its presence matters to
the modelled control flow. -/
structure Session where
  user : String
  apikey : String
  deriving Repr, DecidableEq

/-- Embedding of `get_continuous_deployment_config` (lines 389-402). With a
session, the code evaluates
`await self._fetch_continuous_deployment_config(...).values()`: the call
produces a coroutine object and `.values` is looked up on it before the
await, so the attribute access decides the outcome. Without a session, the
cached dictionary is read and optionally indexed by the requested
environments (`KeyError` when one is absent). -/
def get_continuous_deployment_config (session : Option Session)
    (cachedConfig : List (String × EnvironmentConfig))
    (environments : Option (List String)) :
    Except PyExn (List EnvironmentConfig) :=
  match session with
  | some _ =>
    match getattrValues PyObject.coroutine with
    | .error e => .error e
    | .ok values => .ok values
  | none =>
    match environments with
    | some envs =>
      envs.foldlM (fun results env =>
        match List.lookup env cachedConfig with
        | some conf => .ok (results ++ [conf])
        | none => .error PyExn.keyError) []
    | none =>
      match getattrValues (PyObject.dict cachedConfig) with
      | .error e => .error e
      | .ok values => .ok values

/-- Stage rank of a cached entry: the position of its branch name in the
configured branch list, the quantity the push-handler scan compares. -/
def envRank (cfg : PluginConfig) (e : EnvironmentConfig) : Nat :=
  (listIndex e.name cfg.cd_branches_accepted).getD 0

/-- The cached environment-config list is ordered by configured
pipeline-stage rank. -/
def envOrderedByRank (cfg : PluginConfig) (l : List EnvironmentConfig) : Prop :=
  l.Chain' (fun a b => envRank cfg a ≤ envRank cfg b)

/-- The cached available-version list is strictly descending by build
number with at most one entry per build number. -/
def availStrictDescending (l : List Available) : Prop :=
  l.Chain' (fun a b => pyStrLt b.build a.build = true)
    ∧ l.Pairwise (fun a b => a.build ≠ b.build)

/-- Sample plugin configuration following the scenario of the spec:
environments `dev` on branch `develop` and pull-request-mediated `prod` on
branch `main`, with `master` eligible for available-version tracking. -/
def sampleCfg : PluginConfig :=
  { cd_environments :=
      [ { name := "dev", branch := "develop", version := { file := some "VERSION" } },
        { name := "prod", branch := "main", version := { file := some "VERSION" },
          trigger := some { enabled := true, pullrequest := true } } ],
    cd_pullrequest_tag := "[DEPLOY]",
    cd_versions_available := ["master"] }

theorem charListLt_irrefl : ∀ l : List Char, charListLt l l = false
  | [] => rfl
  | c :: r => by
    simp only [charListLt, if_neg (lt_irrefl c)]
    exact charListLt_irrefl r

theorem pyStrLt_irrefl (s : String) : pyStrLt s s = false :=
  charListLt_irrefl s.data

theorem statusInsert_idem (uuid build_nb version : String) :
    ∀ l : List Available,
      statusInsert uuid build_nb version (statusInsert uuid build_nb version l)
        = statusInsert uuid build_nb version l
  | [] => rfl
  | conf :: rest => by
    by_cases hlt : pyStrLt build_nb conf.build = true
    · simp only [statusInsert, hlt, if_true, if_pos hlt]
      exact congrArg (conf :: ·) (statusInsert_idem uuid build_nb version rest)
    · by_cases heq : (conf.build == build_nb) = true
      · simp only [statusInsert, hlt, if_false, heq, if_true, Bool.false_eq_true]
      · simp only [statusInsert, hlt, heq, if_false, Bool.false_eq_true,
          pyStrLt_irrefl, beq_self_eq_true, if_true]

theorem lookup_delEntry_self {α : Type} (k : String) :
    ∀ d : CacheDict α, getEntry (delEntry d k) k = none
  | [] => rfl
  | (k', v) :: rest => by
    by_cases h : (k' == k) = true
    · simp only [delEntry, List.filter_cons, h, Bool.not_true]
      exact lookup_delEntry_self k rest
    · simp only [delEntry, List.filter_cons, h, Bool.not_false, getEntry, List.lookup]
      have hne : k' ≠ k := by simpa using h
      have hk : (k == k') = false := by
        simp only [beq_eq_false_iff_ne, ne_eq]
        exact fun hh => hne hh.symm
      simp only [hk]
      exact lookup_delEntry_self k rest

theorem lookup_delEntry_ne {α : Type} (k uuid : String) (hne : k ≠ uuid) :
    ∀ d : CacheDict α, getEntry (delEntry d uuid) k = getEntry d k
  | [] => rfl
  | (k', v) :: rest => by
    by_cases h : (k' == uuid) = true
    · have hk : (k == k') = false := by
        rw [beq_iff_eq] at h
        simp only [beq_eq_false_iff_ne, ne_eq]
        exact fun hh => hne (hh.trans h)
      simp only [delEntry, List.filter_cons, h, Bool.not_true, getEntry, List.lookup, hk]
      exact lookup_delEntry_ne k uuid hne rest
    · simp only [delEntry, List.filter_cons, h, Bool.not_false, getEntry, List.lookup]
      cases h2 : k == k'
      · exact lookup_delEntry_ne k uuid hne rest
      · rfl

theorem listIndex_eq_none_of_not_mem {x : String} :
    ∀ {l : List String}, x ∉ l → listIndex x l = none
  | [], _ => rfl
  | y :: rest, h => by
    have hy : (y == x) = false := by
      cases h2 : y == x
      · rfl
      · rw [beq_iff_eq] at h2
        exact absurd (h2 ▸ List.mem_cons_self y rest) h
    simp only [listIndex, hy, if_false, Bool.false_eq_true]
    rw [listIndex_eq_none_of_not_mem (fun hm => h (List.mem_cons_of_mem y hm))]
    rfl

theorem listIndex_isSome_of_mem {x : String} :
    ∀ {l : List String}, x ∈ l → (listIndex x l).isSome = true
  | [], h => absurd h (List.not_mem_nil x)
  | y :: rest, h => by
    by_cases hy : (y == x) = true
    · simp only [listIndex, hy, if_true, Option.isSome_some]
    · have hx : x ∈ rest := by
        rcases List.mem_cons.mp h with h1 | h1
        · rw [beq_iff_eq] at hy
          exact absurd h1.symm hy
        · exact h1
      simp only [listIndex, hy, if_false, Bool.false_eq_true]
      rcases Option.isSome_iff_exists.mp (listIndex_isSome_of_mem hx) with ⟨n, hn⟩
      simp [hn]

theorem applyChange_nil (cfg : PluginConfig) (uuid : String) (c : PushChange) :
    applyChange cfg uuid [] c = [] := by
  unfold applyChange
  by_cases hc : c.created = true
  · simp only [hc, if_true]
    cases h : listIndex c.newName cfg.cd_branches_accepted
    · rfl
    · simp only [pushInsertLoop]
  · simp [hc]

theorem foldl_applyChange_nil (cfg : PluginConfig) (uuid : String) :
    ∀ changes : List PushChange, changes.foldl (applyChange cfg uuid) [] = []
  | [] => rfl
  | c :: cs => by
    rw [List.foldl_cons, applyChange_nil]
    exact foldl_applyChange_nil cfg uuid cs

theorem handle_commit_status_empty (cfg : PluginConfig) (uuid : String)
    (event : HookEventKind) (p : CommitStatusPayload) :
    handle_commit_status cfg uuid event { envConfigs := [], available := [] } p
      = { envConfigs := [], available := [] } := by
  unfold handle_commit_status
  by_cases h1 : cfg.cd_versions_available.contains p.refname = true
  · rw [if_pos h1]
    cases h2 : parseBuildNb p.url with
    | none => rfl
    | some b =>
      dsimp only
      by_cases h3 :
          (event == HookEventKind.commitStatusCreated
            && !(cfg.cd_branches_accepted.contains p.refname)) = true
      · rw [if_pos h3]
      · rw [if_neg h3]
        by_cases h4 : (p.state == SUCCESSFUL) = true
        · rw [if_pos h4]
          rfl
        · rw [if_neg h4]
  · rw [if_neg h1]

theorem applyRepoEvent_empty (cfg : PluginConfig) (uuid : String)
    (ev : RepoEvent) :
    applyRepoEvent cfg uuid { envConfigs := [], available := [] } ev
      = { envConfigs := [], available := [] } := by
  cases ev with
  | push changes =>
    simp only [applyRepoEvent, handle_push, foldl_applyChange_nil]
  | commitStatus event p =>
    exact handle_commit_status_empty cfg uuid event p

theorem foldl_applyRepoEvent_empty (cfg : PluginConfig) (uuid : String) :
    ∀ events : List RepoEvent,
      events.foldl (applyRepoEvent cfg uuid) { envConfigs := [], available := [] }
        = { envConfigs := [], available := [] }
  | [] => rfl
  | ev :: evs => by
    rw [List.foldl_cons, applyRepoEvent_empty]
    exact foldl_applyRepoEvent_empty cfg uuid evs

/-- C1: `Trigger(repository, environment, desiredVersion)` checks its
preconditions in a fixed order, short-circuiting on the first failure:
(1) an environment not declared in the configuration fails with
`EnvironmentUnsupported`; (2) otherwise a readonly environment config fails
with `ReadOnly` regardless of the requested version and of the available
versions; (3) otherwise a desired version equal to the recorded one fails
with `VersionAlreadyDeployed` even when that version is available; (4)
otherwise a version absent from the available-version list fails with
`VersionUnsupported`. -/
theorem C1_trigger_precondition_order (cfg : PluginConfig)
    (continuous_deployment : EnvironmentConfig)
    (versions_available : List Available)
    (repository environment version : String) :
    (cfg.cd_environments.find? (fun e => e.name == environment) = none →
      trigger_deployment_check cfg continuous_deployment versions_available
          repository environment version
        = .error (.envUnsupported repository environment))
    ∧ ((cfg.cd_environments.find? (fun e => e.name == environment)).isSome = true →
        continuous_deployment.readonly = true →
        trigger_deployment_check cfg continuous_deployment versions_available
            repository environment version
          = .error (.readOnly repository environment))
    ∧ ((cfg.cd_environments.find? (fun e => e.name == environment)).isSome = true →
        continuous_deployment.readonly = false →
        continuous_deployment.version = some version →
        trigger_deployment_check cfg continuous_deployment versions_available
            repository environment version
          = .error (.versionAlreadyDeployed repository environment version))
    ∧ ((cfg.cd_environments.find? (fun e => e.name == environment)).isSome = true →
        continuous_deployment.readonly = false →
        continuous_deployment.version ≠ some version →
        (∀ a ∈ versions_available, a.version ≠ version) →
        trigger_deployment_check cfg continuous_deployment versions_available
            repository environment version
          = .error (.versionUnsupported repository version)) := by
  refine ⟨fun hnone => ?_, fun hsome hro => ?_, fun hsome hro hver => ?_,
    fun hsome hro hver havail => ?_⟩
  · simp only [trigger_deployment_check, hnone]
  · rcases Option.isSome_iff_exists.mp hsome with ⟨e, he⟩
    simp only [trigger_deployment_check, he, trigger_prepare, hro, if_true]
  · rcases Option.isSome_iff_exists.mp hsome with ⟨e, he⟩
    simp only [trigger_deployment_check, he, trigger_prepare, hro, Bool.false_eq_true,
      if_false, hver, beq_self_eq_true, if_true]
  · rcases Option.isSome_iff_exists.mp hsome with ⟨e, he⟩
    have hbe : (continuous_deployment.version == some version) = false := by
      simp only [beq_eq_false_iff_ne, ne_eq]
      exact hver
    have hfind : versions_available.find? (fun a => a.version == version) = none := by
      rw [List.find?_eq_none]
      intro a ha
      simp only [beq_eq_false_iff_ne, ne_eq, Bool.not_eq_true]
      exact havail a ha
    simp only [trigger_deployment_check, he, trigger_prepare, hro, Bool.false_eq_true,
      if_false, hbe, hfind]

/-- Closed instance of C1: with the sample configuration, a readonly `dev`
environment makes the trigger fail with the read-only error. -/
theorem C1_witness :
    trigger_deployment_check sampleCfg
        { name := "develop", environment := "dev", version := some "old", readonly := true }
        [{ key := ("team/repo", "12"), build := "12", version := "abc123" }]
        "team/repo" "dev" "abc123"
      = .error (.readOnly "team/repo" "dev") :=
  (C1_trigger_precondition_order sampleCfg
      { name := "develop", environment := "dev", version := some "old", readonly := true }
      [{ key := ("team/repo", "12"), build := "12", version := "abc123" }]
      "team/repo" "dev" "abc123").2.1 (by decide) rfl

/-- C2: every sequence of push and commit-status webhook events applied
from an empty repository state yields an EnvironmentConfig list ordered by
configured pipeline-stage rank and an AvailableVersion list strictly
descending by build number with at most one entry per build number. (Both
insertion scans lack a terminal append, so from the empty state both lists
in fact stay empty and the invariants hold vacuously.) -/
theorem C2_event_sequence_invariants (cfg : PluginConfig) (uuid : String)
    (events : List RepoEvent) :
    envOrderedByRank cfg
        ((events.foldl (applyRepoEvent cfg uuid)
          { envConfigs := [], available := [] }).envConfigs)
    ∧ availStrictDescending
        ((events.foldl (applyRepoEvent cfg uuid)
          { envConfigs := [], available := [] }).available) := by
  rw [foldl_applyRepoEvent_empty]
  exact ⟨List.chain'_nil, List.chain'_nil, List.Pairwise.nil⟩

/-- Sample successful commit-status payload on the tracked `master` ref,
with build number `12` in the trailing path segment of the status URL. -/
def sampleStatusPayload : CommitStatusPayload :=
  { refname := "master"
    state := "SUCCESSFUL"
    url := "https://api.bitbucket.org/2.0/repositories/team/repo/pipelines/12"
    commitHash := "abc123"
    repoName := "repo" }

/-- C3 (divergence witness): a successful commit-status event on a tracked
ref, with build number parsed from the URL, applied to an empty cached
available-version list leaves the list empty: the scan of
`__handle_commit_status` never executes its loop body on an empty list and
the code has no append after the loop, so the claimed append at the end
does not happen. -/
theorem C3_empty_list_drop :
    sampleCfg.cd_versions_available.contains sampleStatusPayload.refname = true
    ∧ parseBuildNb sampleStatusPayload.url = some "12"
    ∧ sampleStatusPayload.state = SUCCESSFUL
    ∧ handle_commit_status sampleCfg "team/repo" .commitStatusUpdated
        { envConfigs := [], available := [] } sampleStatusPayload
      = { envConfigs := [], available := [] } := by
  refine ⟨rfl, by decide, rfl, ?_⟩
  exact handle_commit_status_empty sampleCfg "team/repo" .commitStatusUpdated
    sampleStatusPayload

/-- C5: replaying a successful commit-status event twice yields the same
cached state (in particular the same AvailableVersion list) as applying it
once. -/
theorem C5_status_replay_idempotent (cfg : PluginConfig) (uuid : String)
    (event : HookEventKind) (st : RepoCDState) (p : CommitStatusPayload)
    (hs : p.state = SUCCESSFUL) :
    handle_commit_status cfg uuid event
        (handle_commit_status cfg uuid event st p) p
      = handle_commit_status cfg uuid event st p := by
  unfold handle_commit_status
  by_cases h1 : cfg.cd_versions_available.contains p.refname = true
  · rw [if_pos h1, if_pos h1]
    cases h2 : parseBuildNb p.url with
    | none => rfl
    | some b =>
      dsimp only
      by_cases h3 :
          (event == HookEventKind.commitStatusCreated
            && !(cfg.cd_branches_accepted.contains p.refname)) = true
      · rw [if_pos h3, if_pos h3]
      · rw [if_neg h3, if_neg h3]
        have h4 : (p.state == SUCCESSFUL) = true := by
          rw [hs]
          exact beq_self_eq_true SUCCESSFUL
        rw [if_pos h4, if_pos h4]
        simp only [statusInsert_idem]
  · rw [if_neg h1, if_neg h1]

/-- Closed instance of C5: replaying a successful status event for build
`9` over a cache already holding build `12` changes nothing the second
time. -/
theorem C5_witness :
    handle_commit_status sampleCfg "team/repo" .commitStatusUpdated
        (handle_commit_status sampleCfg "team/repo" .commitStatusUpdated
          { envConfigs := [],
            available := [{ key := ("team/repo", "12"), build := "12", version := "abc123" }] }
          { refname := "master", state := "SUCCESSFUL",
            url := "https://api.bitbucket.org/x/9", commitHash := "h9", repoName := "repo" })
        { refname := "master", state := "SUCCESSFUL",
          url := "https://api.bitbucket.org/x/9", commitHash := "h9", repoName := "repo" }
      = handle_commit_status sampleCfg "team/repo" .commitStatusUpdated
          { envConfigs := [],
            available := [{ key := ("team/repo", "12"), build := "12", version := "abc123" }] }
          { refname := "master", state := "SUCCESSFUL",
            url := "https://api.bitbucket.org/x/9", commitHash := "h9", repoName := "repo" } :=
  C5_status_replay_idempotent sampleCfg "team/repo" .commitStatusUpdated
    { envConfigs := [],
      available := [{ key := ("team/repo", "12"), build := "12", version := "abc123" }] }
    { refname := "master", state := "SUCCESSFUL",
      url := "https://api.bitbucket.org/x/9", commitHash := "h9", repoName := "repo" }
    rfl

/-- C6: the repository-deleted handler removes the repository's entry from
every cache namespace, completes on any state (also when namespaces hold no
entry for it), and leaves entries of other repositories unchanged. -/
theorem C6_delete_repo_clears (uuid : String) (st : CacheState) :
    (getEntry (handle_delete_repo uuid st).repo uuid = none
      ∧ getEntry (handle_delete_repo uuid st).environementConfig uuid = none
      ∧ getEntry (handle_delete_repo uuid st).continuousDeploymentConfig uuid = none
      ∧ getEntry (handle_delete_repo uuid st).available uuid = none)
    ∧ (∀ k, k ≠ uuid →
        getEntry (handle_delete_repo uuid st).repo k = getEntry st.repo k
        ∧ getEntry (handle_delete_repo uuid st).environementConfig k
            = getEntry st.environementConfig k
        ∧ getEntry (handle_delete_repo uuid st).continuousDeploymentConfig k
            = getEntry st.continuousDeploymentConfig k
        ∧ getEntry (handle_delete_repo uuid st).available k
            = getEntry st.available k) := by
  refine ⟨⟨?_, ?_, ?_, ?_⟩, fun k hk => ⟨?_, ?_, ?_, ?_⟩⟩
  · exact lookup_delEntry_self uuid st.repo
  · exact lookup_delEntry_self uuid st.environementConfig
  · exact lookup_delEntry_self uuid st.continuousDeploymentConfig
  · exact lookup_delEntry_self uuid st.available
  · exact lookup_delEntry_ne k uuid hk st.repo
  · exact lookup_delEntry_ne k uuid hk st.environementConfig
  · exact lookup_delEntry_ne k uuid hk st.continuousDeploymentConfig
  · exact lookup_delEntry_ne k uuid hk st.available

/-- Sample cache state holding entries for two repositories, with one
namespace (`continuousDeploymentConfig`) empty. -/
def sampleCacheState : CacheState :=
  { repo := [("team/repo", { workspace_name := "team", repo_slug_name := "repo" }),
             ("team/other", { workspace_name := "team", repo_slug_name := "other" })]
    environementConfig := [("team/repo", [])]
    continuousDeploymentConfig := []
    available := [("team/repo",
      [{ key := ("team/repo", "12"), build := "12", version := "abc123" }])] }

/-- Closed instance of C6: deleting `team/repo` clears its entries in every
namespace (also in a namespace that held none) and keeps `team/other`. -/
theorem C6_witness :
    getEntry (handle_delete_repo "team/repo" sampleCacheState).available "team/repo" = none
    ∧ getEntry (handle_delete_repo "team/repo" sampleCacheState).continuousDeploymentConfig
        "team/repo" = none
    ∧ getEntry (handle_delete_repo "team/repo" sampleCacheState).repo "team/other"
        = getEntry sampleCacheState.repo "team/other" :=
  ⟨(C6_delete_repo_clears "team/repo" sampleCacheState).1.2.2.2,
   (C6_delete_repo_clears "team/repo" sampleCacheState).1.2.2.1,
   ((C6_delete_repo_clears "team/repo" sampleCacheState).2 "team/other" (by decide)).1⟩

/-- C4 (counterexample): a push event creating the CD branch `main` applied
to an empty cached environment-config list inserts nothing — the scan of
`__handle_push` never executes its loop body on an empty list and the code
has no append after the loop — so the new deployment branch is not visible
in the cache, contradicting the claimed visibility for the empty-list
case. -/
theorem C4_counterexample :
    ("main" ∈ sampleCfg.cd_branches_accepted)
    ∧ applyChange sampleCfg "team/repo" [] { created := true, newName := "main" } = [] := by
  exact ⟨by decide, rfl⟩

/-- C4 (amended): the insertion scan of `__handle_push` inserts the
placeholder before the first cached entry of strictly greater stage rank
after skipping the entries of smaller rank, skips entirely when it first
meets an entry of equal rank, and inserts nothing when the list is empty or
every entry has rank at most the new one — so the newly created branch
becomes visible only when an entry of strictly greater rank already
exists. -/
theorem C4_push_insert_scan (branches : List String) (index : Nat)
    (env : EnvironmentConfig) :
    (pushInsertLoop branches index env [] = some [])
    ∧ (∀ l : List EnvironmentConfig,
        (∀ a ∈ l, ∃ j, listIndex a.name branches = some j ∧ j < index) →
        pushInsertLoop branches index env l = some l)
    ∧ (∀ (l₁ : List EnvironmentConfig) (b : EnvironmentConfig)
        (l₂ : List EnvironmentConfig),
        (∀ a ∈ l₁, ∃ j, listIndex a.name branches = some j ∧ j < index) →
        listIndex b.name branches = some index →
        pushInsertLoop branches index env (l₁ ++ b :: l₂) = some (l₁ ++ b :: l₂))
    ∧ (∀ (l₁ : List EnvironmentConfig) (b : EnvironmentConfig)
        (l₂ : List EnvironmentConfig) (jb : Nat),
        (∀ a ∈ l₁, ∃ j, listIndex a.name branches = some j ∧ j < index) →
        listIndex b.name branches = some jb → index < jb →
        pushInsertLoop branches index env (l₁ ++ b :: l₂)
          = some (l₁ ++ env :: b :: l₂)) := by
  refine ⟨rfl, ?_, ?_, ?_⟩
  · intro l
    induction l with
    | nil => intro _; rfl
    | cons a rest ih =>
      intro h
      rcases h a (List.mem_cons_self a rest) with ⟨j, hj, hlt⟩
      simp only [pushInsertLoop, hj, if_pos hlt]
      rw [ih (fun x hx => h x (List.mem_cons_of_mem a hx))]
      rfl
  · intro l₁ b l₂ h hb
    induction l₁ with
    | nil =>
      simp only [List.nil_append, pushInsertLoop, hb]
      rw [if_neg (lt_irrefl index), if_pos (beq_self_eq_true index)]
    | cons a rest ih =>
      rcases h a (List.mem_cons_self a rest) with ⟨j, hj, hlt⟩
      simp only [List.cons_append, pushInsertLoop, hj, if_pos hlt, List.append_eq]
      rw [ih (fun x hx => h x (List.mem_cons_of_mem a hx))]
      rfl
  · intro l₁ b l₂ jb h hb hlt
    induction l₁ with
    | nil =>
      simp only [List.nil_append, pushInsertLoop, hb]
      have h1 : ¬ jb < index := Nat.not_lt_of_lt hlt
      have h2 : (jb == index) = false := by
        simp only [beq_eq_false_iff_ne, ne_eq]
        exact fun hh => absurd (hh ▸ hlt) (lt_irrefl jb)
      rw [if_neg h1, h2]
      rfl
    | cons a rest ih =>
      rcases h a (List.mem_cons_self a rest) with ⟨j, hj, hjlt⟩
      simp only [List.cons_append, pushInsertLoop, hj, if_pos hjlt, List.append_eq]
      rw [ih (fun x hx => h x (List.mem_cons_of_mem a hx))]
      rfl

/-- Closed instance of the amended C4: with branches `develop` then `main`,
pushing `develop` (rank 0) while the cache holds only the `main` entry
(rank 1, strictly greater) inserts the placeholder in front. -/
theorem C4_witness :
    pushInsertLoop ["develop", "main"] 0
        { key := ("team/repo", "develop"), environment := "dev" }
        [{ key := ("team/repo", "main"), name := "main", environment := "prod" }]
      = some [{ key := ("team/repo", "develop"), environment := "dev" },
              { key := ("team/repo", "main"), name := "main", environment := "prod" }] :=
  (C4_push_insert_scan ["develop", "main"] 0
      { key := ("team/repo", "develop"), environment := "dev" }).2.2.2 []
    { key := ("team/repo", "main"), name := "main", environment := "prod" } [] 1
    (fun a ha => absurd ha (List.not_mem_nil a)) (by decide) (by decide)

theorem computeDeploys_eq_nil (cfg : PluginConfig)
    (environments : Option (List String)) :
    ∀ branchNames : List String,
      (∀ b ∈ branchNames, b ∉ cfg.cd_branches_accepted) →
      computeDeploys cfg environments branchNames = []
  | [], _ => rfl
  | bname :: rest, h => by
    have hn : listIndex bname cfg.cd_branches_accepted = none :=
      listIndex_eq_none_of_not_mem (h bname (List.mem_cons_self bname rest))
    simp only [computeDeploys, hn]
    exact computeDeploys_eq_nil cfg environments rest
      (fun b hb => h b (List.mem_cons_of_mem bname hb))

theorem computeDeploys_none_ne_nil (cfg : PluginConfig) :
    ∀ {branchNames : List String} {b : String}, b ∈ branchNames →
      b ∈ cfg.cd_branches_accepted →
      computeDeploys cfg none branchNames ≠ []
  | [], b, hmem, _ => absurd hmem (List.not_mem_nil b)
  | bname :: rest, b, hmem, hacc => by
    cases hidx : listIndex bname cfg.cd_branches_accepted with
    | some i =>
      simp only [computeDeploys, hidx, if_pos rfl]
      exact List.cons_ne_nil _ _
    | none =>
      have hb : b ∈ rest := by
        rcases List.mem_cons.mp hmem with h1 | h1
        · rw [h1] at hacc
          have := listIndex_isSome_of_mem hacc
          rw [hidx] at this
          exact absurd this (by simp)
        · exact h1
      simp only [computeDeploys, hidx]
      exact computeDeploys_none_ne_nil cfg hb hacc

/-- C7: when no branch of the repository belongs to the configured CD
branch list, fetching the continuous-deployment configuration fails with
the not-supported condition (for any environment filter); when at least one
configured branch exists, the full computation (no environment filter)
does not fail with that condition. -/
theorem C7_cd_not_supported (cfg : PluginConfig) (repository : String)
    (branchNames : List String)
    (resolve : String → Nat → EnvironmentConfig) :
    ((∀ b ∈ branchNames, b ∉ cfg.cd_branches_accepted) →
      ∀ environments,
        fetch_continuous_deployment_config cfg repository branchNames
            environments resolve
          = .error (.cdNotSupported repository))
    ∧ ((∃ b ∈ branchNames, b ∈ cfg.cd_branches_accepted) →
        fetch_continuous_deployment_config cfg repository branchNames
            none resolve
          ≠ .error (.cdNotSupported repository)) := by
  constructor
  · intro h environments
    unfold fetch_continuous_deployment_config
    rw [computeDeploys_eq_nil cfg environments branchNames h]
    rfl
  · rintro ⟨b, hmem, hacc⟩
    unfold fetch_continuous_deployment_config
    have hne := computeDeploys_none_ne_nil cfg hmem hacc
    have hlen : (computeDeploys cfg none branchNames).length ≠ 0 :=
      fun h0 => hne (List.length_eq_zero.mp h0)
    have hcond : ((computeDeploys cfg none branchNames).length == 0) ≠ true := by
      simpa using hlen
    rw [if_neg hcond]
    simp

/-- Trivial resolution oracle standing in for the per-branch network
lookup, used only to instantiate C7 concretely. -/
def sampleResolve : String → Nat → EnvironmentConfig := fun bname _ =>
  { key := ("team/repo", bname), name := bname }

/-- Closed instance of C7: a repository with only a `feature` branch fails
with the not-supported condition, while one with a `develop` branch does
not. -/
theorem C7_witness :
    fetch_continuous_deployment_config sampleCfg "team/repo" ["feature"]
        none sampleResolve
      = .error (.cdNotSupported "team/repo")
    ∧ fetch_continuous_deployment_config sampleCfg "team/repo" ["develop"]
        none sampleResolve
      ≠ .error (.cdNotSupported "team/repo") :=
  ⟨(C7_cd_not_supported sampleCfg "team/repo" ["feature"] sampleResolve).1
      (by decide) none,
   (C7_cd_not_supported sampleCfg "team/repo" ["develop"] sampleResolve).2
      ⟨"develop", by decide, by decide⟩⟩

/-- C8 (divergence witness): the pull request opened by the trigger
workflow carries the title `"Ugrade <environment> <tag>"` — the word
`Upgrade` is misspelled in the source — so the title differs from the
`"Upgrade <environment> <tag>"` format the specification prescribes. -/
theorem C8_pr_title_typo :
    prTitle "prod" "[DEPLOY]" = "Ugrade prod [DEPLOY]"
    ∧ prTitle "prod" "[DEPLOY]" ≠ specPrTitle "prod" "[DEPLOY]" := by
  exact ⟨rfl, by decide⟩

/-- C9: calling `get_continuous_deployment_config` with a session always
raises before returning a result — `.values` is looked up on the coroutine
object produced by the un-awaited `_fetch_continuous_deployment_config`
call, an `AttributeError` — so no session-based caller obtains an
environment configuration through this path. -/
theorem C9_session_path_raises (s : Session)
    (cachedConfig : List (String × EnvironmentConfig))
    (environments : Option (List String)) :
    get_continuous_deployment_config (some s) cachedConfig environments
      = .error (.attributeError "values") := rfl

/-- C10: the webhook endpoint invokes `__handle_push` and
`__handle_commit_status` without awaiting the returned coroutine, so a push
or commit-status event leaves the environment-config,
continuous-deployment-config and available-version caches unchanged; only
the repository-record cache entry is updated. -/
theorem C10_handlers_not_awaited (cfg : PluginConfig) (st : CacheState)
    (req : HookRequest)
    (h : req.eventKey = .repoPush ∨ req.eventKey = .commitStatusCreated
      ∨ req.eventKey = .commitStatusUpdated) :
    (handle_Hooks_Repo cfg st req).environementConfig = st.environementConfig
    ∧ (handle_Hooks_Repo cfg st req).continuousDeploymentConfig
        = st.continuousDeploymentConfig
    ∧ (handle_Hooks_Repo cfg st req).available = st.available
    ∧ (handle_Hooks_Repo cfg st req).repo
        = setEntry st.repo req.uuid
            { workspace_name := req.workspaceSlug, repo_slug_name := req.repoName } := by
  rcases h with h | h | h <;>
    simp [handle_Hooks_Repo, unawaited, h]

/-- Closed instance of C10: a push request creating `main` on a populated
cache changes no namespace other than the repository records. -/
theorem C10_witness :
    (handle_Hooks_Repo sampleCfg sampleCacheState
        { eventKey := .repoPush, uuid := "team/repo", workspaceSlug := "team",
          repoName := "repo",
          changes := [{ created := true, newName := "main" }] }).environementConfig
      = sampleCacheState.environementConfig
    ∧ (handle_Hooks_Repo sampleCfg sampleCacheState
        { eventKey := .repoPush, uuid := "team/repo", workspaceSlug := "team",
          repoName := "repo",
          changes := [{ created := true, newName := "main" }] }).continuousDeploymentConfig
      = sampleCacheState.continuousDeploymentConfig
    ∧ (handle_Hooks_Repo sampleCfg sampleCacheState
        { eventKey := .repoPush, uuid := "team/repo", workspaceSlug := "team",
          repoName := "repo",
          changes := [{ created := true, newName := "main" }] }).available
      = sampleCacheState.available
    ∧ (handle_Hooks_Repo sampleCfg sampleCacheState
        { eventKey := .repoPush, uuid := "team/repo", workspaceSlug := "team",
          repoName := "repo",
          changes := [{ created := true, newName := "main" }] }).repo
      = setEntry sampleCacheState.repo "team/repo"
          { workspace_name := "team", repo_slug_name := "repo" } :=
  C10_handlers_not_awaited sampleCfg sampleCacheState
    { eventKey := .repoPush, uuid := "team/repo", workspaceSlug := "team",
      repoName := "repo",
      changes := [{ created := true, newName := "main" }] }
    (Or.inl rfl)

end DevopsSccs
